import Mathlib

/-!
Formal model of the edubot-matrix core: the settings/authorization store
(`storage.py`), the command processor (`bot_commands.py`), the RSS feed
scheduler (`rss.py`) and the invite callback (`callbacks.py`).

Python conventions used throughout the model:
* database tables are association lists kept in insertion (rowid) order;
* Python `float` values are modelled as exact rationals (`ℚ`);
* timestamps (`datetime` / unix seconds) are modelled as `Int`;
* a Python exception that escapes a function is modelled by an explicit
  `raise` constructor carrying the exception name and the state at the
  moment of the raise;
* external collaborators (matrix client, feedparser) are passed in as
  explicit parameters describing their observable answer.
-/

namespace Edubot

/-- A row of the `room` table.

`room_id` and `personality` are the columns created by
`Storage._initial_setup` in `storage.py`.

`interject_odds` and `hide_in_threads` are *Modelled from the spec*: the
spec's persisted schema (§6) lists `room(room_id, personality,
interject_odds, hide_in_threads)`, but the accessors
`get_interject`/`set_interject`/`get_hide_in_threads`/`toggle_hide_in_threads`
are absent from the `Storage` class in `src/` (only their callers in
`bot_commands.py` and `message_responses.py` exist), so the two settings
columns and their accessors are modelled from the spec's words. -/
structure RoomRow where
  room_id : String
  personality : Option String
  interject_odds : ℚ
  hide_in_threads : Bool
deriving DecidableEq, Repr

/-- The persistent state owned by `Storage` (`storage.py`).

`admin`, `room`, `room_admin`, `rss_feed` and `rss_subscription` mirror the
tables created in `Storage._initial_setup`.  `room_admin` rows are
`(admin_id, room_id)` pairs; `rss_feed` rows are `(url, last_update)` pairs;
`rss_subscription` rows are `(url, room_id)` pairs.

`greeting` is *Modelled from the spec*: `Storage.set_greeting` /
`Storage.get_greeting` are called from `bot_commands.py` but are absent from
the `Storage` class in `src/`; the spec (§4.2, §6) says the `greeting` verb
persists a single stored greeting string. -/
structure Storage where
  admin : List String
  room : List RoomRow
  room_admin : List (String × String)
  rss_feed : List (String × Int)
  rss_subscription : List (String × String)
  greeting : String
deriving DecidableEq, Repr

/-- A storage with all tables empty, as produced by `_initial_setup` on a
fresh database (the default greeting comes from configuration). -/
def emptyStorage (default_greeting : String) : Storage :=
  ⟨[], [], [], [], [], default_greeting⟩

/-- `Storage._add_room_to_db`: `INSERT OR IGNORE INTO room(room_id)`.
A freshly inserted row has every other column at its default
(`personality` NULL, odds 0, flag false). -/
def add_room_to_db (st : Storage) (room_id : String) : Storage :=
  if (st.room.find? fun r => r.room_id = room_id).isSome then st
  else { st with room := st.room ++ [⟨room_id, none, 0, false⟩] }

/-- `Storage.set_room_admin`: insert the admin into `admin` and the room into
`room` if absent, then `INSERT OR IGNORE INTO room_admin(admin_id, room_id)`. -/
def set_room_admin (st : Storage) (room_id admin_id : String) : Storage :=
  let st1 := if admin_id ∈ st.admin then st
             else { st with admin := st.admin ++ [admin_id] }
  let st2 := add_room_to_db st1 room_id
  if (admin_id, room_id) ∈ st2.room_admin then st2
  else { st2 with room_admin := st2.room_admin ++ [(admin_id, room_id)] }

/-- `Storage.remove_room_admin`: `DELETE FROM room_admin WHERE room_id = ?
AND admin_id = ?`.  Deleting a relation that does not exist is a no-op. -/
def remove_room_admin (st : Storage) (room_id admin_id : String) : Storage :=
  { st with
    room_admin :=
      st.room_admin.filter fun p => ¬(p.2 = room_id ∧ p.1 = admin_id) }

/-- `Storage.list_room_admins`: `SELECT admin_id FROM room_admin WHERE
room_id = ?`, unpacked into a list. -/
def list_room_admins (st : Storage) (room_id : String) : List String :=
  (st.room_admin.filter fun p => p.2 = room_id).map (·.1)

/-- `Storage.check_if_admin`: the user is an admin of the room, or appears in
the configured super-admin list (`g.config.admins`). -/
def check_if_admin (super_admins : List String) (st : Storage)
    (room_id user_id : String) : Bool :=
  decide (user_id ∈ list_room_admins st room_id ∨ user_id ∈ super_admins)

/-- `Storage.set_personality`: upsert the room row, then
`UPDATE room SET personality = ? WHERE room_id = ?`. -/
def set_personality (st : Storage) (room_id personality : String) : Storage :=
  let st1 := add_room_to_db st room_id
  { st1 with
    room := st1.room.map fun r =>
      if r.room_id = room_id then { r with personality := some personality }
      else r }

/-- `Storage.get_personality`: `SELECT personality FROM room WHERE
room_id = ?` followed by `self.cursor.fetchone()[0]`.

When the room has no row, `fetchone()` returns Python `None`, and
subscripting `None` raises a `TypeError`; this is modelled by the
`.error "TypeError"` case.  When the row exists with a NULL personality, the
code substitutes the empty string. -/
def get_personality (st : Storage) (room_id : String) : Except String String :=
  match st.room.find? fun r => r.room_id = room_id with
  | none => .error "TypeError"
  | some r => .ok (r.personality.getD "")

/-- `Storage.add_rss_feed`: upsert the room, `INSERT OR IGNORE` the feed row
with `last_update = unix_utc()` (the current time, passed in as `now`), and
`INSERT OR IGNORE` the subscription row. -/
def add_rss_feed (now : Int) (st : Storage) (room_id rss_url : String) :
    Storage :=
  let st1 := add_room_to_db st room_id
  let st2 :=
    if (st1.rss_feed.find? fun p => p.1 = rss_url).isSome then st1
    else { st1 with rss_feed := st1.rss_feed ++ [(rss_url, now)] }
  if (rss_url, room_id) ∈ st2.rss_subscription then st2
  else { st2 with rss_subscription := st2.rss_subscription ++ [(rss_url, room_id)] }

/-- `Storage.remove_rss_feed`: `DELETE FROM rss_subscription WHERE
room_id = ? AND url = ?`. -/
def remove_rss_feed (st : Storage) (room_id rss_url : String) : Storage :=
  { st with
    rss_subscription :=
      st.rss_subscription.filter fun p => ¬(p.2 = room_id ∧ p.1 = rss_url) }

/-- `Storage.get_feeds_from_room`: `SELECT url FROM rss_subscription WHERE
room_id = ?`. -/
def get_feeds_from_room (st : Storage) (room_id : String) : List String :=
  (st.rss_subscription.filter fun p => p.2 = room_id).map (·.1)

/-- `Storage.get_rooms_from_feed`: `SELECT room_id FROM rss_subscription
WHERE url = ?`. -/
def get_rooms_from_feed (st : Storage) (rss_url : String) : List String :=
  (st.rss_subscription.filter fun p => p.1 = rss_url).map (·.2)

/-- `Storage.set_rss_last_update`: `UPDATE rss_feed SET last_update = ?
WHERE url = ?` with the value `round(time.time())` — the *current wall-clock
time*, passed in as `now`. -/
def set_rss_last_update (now : Int) (st : Storage) (rss_url : String) :
    Storage :=
  { st with
    rss_feed := st.rss_feed.map fun p =>
      if p.1 = rss_url then (p.1, now) else p }

/-- Modelled from the spec: `Storage.get_interject` is called from
`bot_commands.py` and `message_responses.py` but absent from the `Storage`
class in `src/`.  Spec §4.1: `getInterjectOdds(room) → float` (default 0). -/
def get_interject (st : Storage) (room_id : String) : ℚ :=
  match st.room.find? fun r => r.room_id = room_id with
  | none => 0
  | some r => r.interject_odds

/-- Modelled from the spec: `Storage.set_interject` is called from
`bot_commands.py` but absent from the `Storage` class in `src/`.  Spec §4.1:
`setInterjectOdds(room, float)`; writing a room-scoped setting implicitly
creates the room row if absent. -/
def set_interject (st : Storage) (room_id : String) (p : ℚ) : Storage :=
  let st1 := add_room_to_db st room_id
  { st1 with
    room := st1.room.map fun r =>
      if r.room_id = room_id then { r with interject_odds := p } else r }

/-- Modelled from the spec: `Storage.get_hide_in_threads` is called from
`message_responses.py` but absent from the `Storage` class in `src/`.
Spec §4.1: `getHideInThreads(room) → bool`. -/
def get_hide_in_threads (st : Storage) (room_id : String) : Bool :=
  match st.room.find? fun r => r.room_id = room_id with
  | none => false
  | some r => r.hide_in_threads

/-- Modelled from the spec: `Storage.toggle_hide_in_threads` is called from
`bot_commands.py` but absent from the `Storage` class in `src/`.  Spec §4.1:
`toggleHideInThreads(room) → bool` (returns the new value); writing a
room-scoped setting implicitly creates the room row if absent. -/
def toggle_hide_in_threads (st : Storage) (room_id : String) :
    Bool × Storage :=
  let newVal := !(get_hide_in_threads st room_id)
  let st1 := add_room_to_db st room_id
  (newVal,
   { st1 with
     room := st1.room.map fun r =>
       if r.room_id = room_id then { r with hide_in_threads := newVal }
       else r })

/-- Modelled from the spec: `Storage.get_greeting` is called from
`bot_commands.py` but absent from the `Storage` class in `src/`.  Spec §4.2:
the `greeting` verb with no args shows the stored greeting. -/
def get_greeting (st : Storage) : String := st.greeting

/-- Modelled from the spec: `Storage.set_greeting` is called from
`bot_commands.py` but absent from the `Storage` class in `src/`.  Spec §4.2:
the `greeting` verb with args persists the new greeting. -/
def set_greeting (st : Storage) (text : String) : Storage :=
  { st with greeting := text }

/-! ## RSS feeds (`rss.py`) -/

/-- A row of `Storage.list_rss_feeds` (a `FeedInfo` dict): the feed URL, its
`last_update` watermark, and the display name, which is only populated once
`get_rss_updates` has parsed the feed. -/
structure FeedInfo where
  url : String
  last_update : Int
  name : Option String
deriving DecidableEq, Repr

/-- One entry of a parsed feed, as produced by the `feedparser`
collaborator: link, title, description and `timegm(entry.updated_parsed)`. -/
structure ParsedEntry where
  link : String
  title : String
  description : String
  updated : Int
deriving DecidableEq, Repr

/-- A successfully parsed feed: its title and entries.  A `bozo` parse
failure is modelled by the fetch collaborator returning `none`. -/
structure ParsedFeed where
  title : String
  entries : List ParsedEntry
deriving DecidableEq, Repr

/-- A `FeedEntry` dict built by `get_rss_updates`: the (name-populated) feed
info plus the entry's link, title and description. -/
structure FeedEntry where
  feed : FeedInfo
  url : String
  title : String
  description : String
deriving DecidableEq, Repr

/-- `Storage.list_rss_feeds`: `SELECT DISTINCT s.url, f.last_update FROM
rss_subscription s JOIN rss_feed f ON s.url = f.url` (the row order of
`DISTINCT` is unspecified by SQL; the model keeps subscription order). -/
def list_rss_feeds (st : Storage) : List FeedInfo :=
  ((st.rss_subscription.map (·.1)).dedup).filterMap fun u =>
    (st.rss_feed.find? fun p => p.1 = u).map fun p =>
      { url := u, last_update := p.2, name := none }

/-- `get_rss_updates` in `rss.py`: for each feed, fetch and parse it via the
`feedparser` collaborator (`fetch`); on a `bozo` parse failure log and skip
the feed; otherwise record the feed title and append one `FeedEntry` for
every entry whose `timegm(entry.updated_parsed)` is strictly greater than
the feed's stored watermark. -/
def get_rss_updates (fetch : String → Option ParsedFeed)
    (feed_infos : List FeedInfo) : List FeedEntry :=
  feed_infos.foldl
    (fun acc fi =>
      match fetch fi.url with
      | none => acc
      | some parsed =>
        let fi' := { fi with name := some parsed.title }
        acc ++ ((parsed.entries.filter fun e => fi.last_update < e.updated).map
          fun e => { feed := fi', url := e.link, title := e.title,
                     description := e.description }))
    []

/-- The notification text built in `sync_rss_feeds`:
`f"&#8203;{feed name}: [{title}]({url})"`. -/
def rss_message (u : FeedEntry) : String :=
  "&#8203;" ++ u.feed.name.getD "" ++ ": [" ++ u.title ++ "](" ++ u.url ++ ")"

/-- One iteration of the `while True` loop body of `sync_rss_feeds` (after
the sleep): compute the updates, and for each update set the feed's
`last_update` to the current wall-clock time `now` and emit one
`(room_id, text)` notification per room subscribed to the update's feed. -/
def sync_rss_cycle (fetch : String → Option ParsedFeed) (now : Int)
    (st : Storage) : Storage × List (String × String) :=
  let updates := get_rss_updates fetch (list_rss_feeds st)
  updates.foldl
    (fun acc u =>
      let st' := set_rss_last_update now acc.1 u.feed.url
      (st', acc.2 ++ (get_rooms_from_feed st' u.feed.url).map
        fun room_id => (room_id, rss_message u)))
    (st, [])

/-! ## The command processor (`bot_commands.py`) -/

/-- The configuration fields the command processor reads:
`g.config.admins` (the super-admin allowlist) and
`g.config.original_prompt` (the default personality). -/
structure Config where
  admins : List String
  original_prompt : String
deriving DecidableEq, Repr

/-- One user-visible reply, one constructor per `send_text_to_room` call
site in `bot_commands.py` (the payload is the message's variable part):
* `help` — the static help text (`g.help_text`);
* `badPerms s` — "Sorry \x7bs\x7d, you don't have permission …";
* `greetingSet` / `greetingShow t` — the `greeting` verb's replies;
* `threadsMsg b` — "Now hiding …" (true) / "No longer hiding …" (false);
* `personalityShow t` / `personalitySet t`;
* `alreadySubscribed`, `invalidFeed u`, `subscribedFeed u`,
  `notSubscribed u`, `unsubscribed u`, `feedsList us`;
* `notInRoom u`, `nowAdmin u` — the `add` verb's replies;
* `notAnAdmin u`, `onlyAdmin`, `notMemberReply u`, `cannotRemoveSelf`,
  `removedAdmin u` — the `remove` verb's replies;
* `adminsList us` — the space-joined admin list;
* `interjectDisabledStatus`, `interjectingEvery n`, `oddsMustBeInt`,
  `oddsOutOfRange`, `interjectOff`, `nowInterjecting n` — the `interject`
  verb's replies. -/
inductive Reply where
  | help : Reply
  | badPerms : String → Reply
  | greetingSet : Reply
  | greetingShow : String → Reply
  | threadsMsg : Bool → Reply
  | personalityShow : String → Reply
  | personalitySet : String → Reply
  | alreadySubscribed : Reply
  | invalidFeed : String → Reply
  | subscribedFeed : String → Reply
  | notSubscribed : String → Reply
  | unsubscribed : String → Reply
  | feedsList : List String → Reply
  | notInRoom : String → Reply
  | nowAdmin : String → Reply
  | notAnAdmin : String → Reply
  | onlyAdmin : Reply
  | notMemberReply : String → Reply
  | cannotRemoveSelf : Reply
  | removedAdmin : String → Reply
  | adminsList : List String → Reply
  | interjectDisabledStatus : Reply
  | interjectingEvery : Int → Reply
  | oddsMustBeInt : Reply
  | oddsOutOfRange : Reply
  | interjectOff : Reply
  | nowInterjecting : Int → Reply
deriving DecidableEq, Repr

/-- The observable result of running one command: either a reply was sent
and the storage is in the given final state, or a Python exception of the
given name escaped (with the storage as it was at the moment of the raise —
no handler mutates storage before its raise site). -/
inductive Outcome where
  | ok : Reply → Storage → Outcome
  | raise : String → Storage → Outcome
deriving DecidableEq, Repr

/-- The storage state after an outcome (unchanged by an escaped
exception). -/
def Outcome.state : Outcome → Storage
  | .ok _ st => st
  | .raise _ st => st

/-- Helper for `pySplit`: accumulates the current token (reversed). -/
def pySplitAux : List Char → List Char → List String
  | [], acc => [String.mk acc.reverse]
  | c :: rest, acc =>
    if c = ' ' then String.mk acc.reverse :: pySplitAux rest []
    else pySplitAux rest (c :: acc)

/-- Python `s.split(" ")`: split on each single space, keeping empty
tokens (the processor filters them out afterwards, mirroring
`[i for i in self.raw_message_lst if i]`). -/
def pySplit (s : String) : List String :=
  pySplitAux s.toList []

/-- Value of a list of decimal digit characters. -/
def digitsVal (cs : List Char) : Nat :=
  cs.foldl (fun a c => a * 10 + (c.toNat - Char.toNat '0')) 0

/-- Python `int()` applied to a whitespace-free token: an optional sign
followed by one or more decimal digits; any other string raises
`ValueError`, modelled as `none`.  (Python also accepts underscore
digit-group separators and unicode digits; no claim depends on those.) -/
def pyInt? (s : String) : Option Int :=
  let core : List Char → Option Nat := fun cs =>
    if cs ≠ [] ∧ cs.all (·.isDigit) then some (digitsVal cs) else none
  match s.toList with
  | '-' :: rest => (core rest).map fun n => -(n : Int)
  | '+' :: rest => (core rest).map fun n => (n : Int)
  | cs => (core cs).map fun n => (n : Int)

/-- `Command._greeting` (reached only for super-admins): with args, join
them with spaces and persist as the new greeting (the code also updates the
in-memory `g.config.greeting`, which nothing else reads); with no args,
show the stored greeting. -/
def greeting_cmd (st : Storage) (args : List String) : Reply × Storage :=
  match args with
  | [] => (.greetingShow (get_greeting st), st)
  | _ => (.greetingSet, set_greeting st (String.intercalate " " args))

/-- `Command.toggle_hide_in_threads`: toggle the flag and confirm the new
state. -/
def toggle_threads_cmd (st : Storage) (room : String) : Reply × Storage :=
  let r := toggle_hide_in_threads st room
  (.threadsMsg r.1, r.2)

/-- `Command._personality`: with no args, read the room personality
(falling back to the default prompt when it is falsy) — note that
`get_personality` raises for a room absent from the `room` table; with
args, join them with spaces and store. -/
def personality_cmd (cfg : Config) (st : Storage) (room : String)
    (args : List String) : Outcome :=
  match args with
  | [] =>
    match get_personality st room with
    | .error e => .raise e st
    | .ok p =>
      .ok (.personalityShow (if p = "" then cfg.original_prompt else p)) st
  | _ =>
    let p := String.intercalate " " args
    .ok (.personalitySet p) (set_personality st room p)

/-- `Command._add_rss_feed`: no args shows help; otherwise reject if the
stripped URL is already subscribed, then if `validate_rss_url(self.args[0])`
fails (note: the *unstripped* argument is validated), else subscribe. -/
def add_rss_cmd (validate : String → Bool) (now : Int) (st : Storage)
    (room : String) (args : List String) : Reply × Storage :=
  match args with
  | [] => (.help, st)
  | a :: _ =>
    let url := a.trim
    if url ∈ get_feeds_from_room st room then (.alreadySubscribed, st)
    else if ¬ validate a then (.invalidFeed url, st)
    else (.subscribedFeed url, add_rss_feed now st room url)

/-- `Command._remove_rss_feed`: no args shows help; reject if the stripped
URL is not subscribed, else unsubscribe. -/
def remove_rss_cmd (st : Storage) (room : String) (args : List String) :
    Reply × Storage :=
  match args with
  | [] => (.help, st)
  | a :: _ =>
    let url := a.trim
    if url ∉ get_feeds_from_room st room then (.notSubscribed url, st)
    else (.unsubscribed url, remove_rss_feed st room url)

/-- `Command._add_admin`: no args shows help; reject if the target is not a
current room member, else add it to the room's admin set. -/
def add_admin_cmd (st : Storage) (room : String) (members args : List String) :
    Reply × Storage :=
  match args with
  | [] => (.help, st)
  | new_admin :: _ =>
    if new_admin ∉ members then (.notInRoom new_admin, st)
    else (.nowAdmin new_admin, set_room_admin st room new_admin)

/-- `Command._remove_admin`: no args shows help; otherwise the four checks,
in source order — target not an admin, target the only admin, target not a
room member, target equals the sender — and only if all pass is the admin
relation removed. -/
def remove_admin_cmd (st : Storage) (room sender : String)
    (members args : List String) : Reply × Storage :=
  match args with
  | [] => (.help, st)
  | admin_id :: _ =>
    let room_admins := list_room_admins st room
    if admin_id ∉ room_admins then (.notAnAdmin admin_id, st)
    else if room_admins.length = 1 then (.onlyAdmin, st)
    else if admin_id ∉ members then (.notMemberReply admin_id, st)
    else if admin_id = sender then (.cannotRemoveSelf, st)
    else (.removedAdmin admin_id, remove_room_admin st room admin_id)

/-- `Command._interject`: with no args report the current odds (disabled
when the stored probability is 0, else "every ~round(1/p)"); with an
argument, Python `int()` raises `ValueError` on a non-integer string and
the `except (TypeError, AssertionError)` clause does *not* catch it, so the
exception escapes; an in-range value is stored as `1/odds` (0 when odds is
0). -/
def interject_cmd (st : Storage) (room : String) (args : List String) :
    Outcome :=
  match args with
  | [] =>
    let percentage := get_interject st room
    if percentage = 0 then .ok .interjectDisabledStatus st
    else .ok (.interjectingEvery (round (1 / percentage))) st
  | a :: _ =>
    match pyInt? a with
    | none => .raise "ValueError" st
    | some odds =>
      if odds < 0 ∨ odds > 10000 then .ok .oddsOutOfRange st
      else if odds ≠ 0 then
        .ok (.nowInterjecting odds) (set_interject st room (1 / (odds : ℚ)))
      else .ok .interjectOff (set_interject st room 0)

/-- `Command.process` (together with the parsing done in
`Command.__init__`): split the raw text on spaces dropping empty tokens; an
empty command shows help; a sender failing `check_if_admin` gets the
no-permission reply; then the room members are fetched — a
`JoinedMembersError` is logged but the code still reads `.members` off the
error response, which raises `AttributeError`; finally the verb is
dispatched (`greeting` additionally requires the sender to be a configured
super-admin), with unknown verbs falling back to help. -/
def process (cfg : Config) (validate : String → Bool)
    (members_res : Except Unit (List String)) (now : Int) (st : Storage)
    (room sender : String) (command_and_args : String) : Outcome :=
  let raw := (pySplit command_and_args).filter (· ≠ "")
  match raw with
  | [] => .ok .help st
  | command :: args =>
    if ¬ check_if_admin cfg.admins st room sender then .ok (.badPerms sender) st
    else
      match members_res with
      | .error _ => .raise "AttributeError" st
      | .ok members =>
        match command with
        | "help" => .ok .help st
        | "threads" => let r := toggle_threads_cmd st room; .ok r.1 r.2
        | "personality" => personality_cmd cfg st room args
        | "subscribe" => let r := add_rss_cmd validate now st room args
                         .ok r.1 r.2
        | "unsubscribe" => let r := remove_rss_cmd st room args; .ok r.1 r.2
        | "feeds" => .ok (.feedsList (get_feeds_from_room st room)) st
        | "add" => let r := add_admin_cmd st room members args; .ok r.1 r.2
        | "remove" => let r := remove_admin_cmd st room sender members args
                      .ok r.1 r.2
        | "admins" => .ok (.adminsList (list_room_admins st room)) st
        | "interject" => interject_cmd st room args
        | "greeting" =>
          if sender ∉ cfg.admins then .ok (.badPerms sender) st
          else let r := greeting_cmd st args; .ok r.1 r.2
        | _ => .ok .help st

/-- One command-processor invocation, as seen by the storage: who sent what
in which room, what the membership lookup collaborator answered, how the
feed validator behaved, and the wall-clock time. -/
structure Op where
  room : String
  sender : String
  command_and_args : String
  members_res : Except Unit (List String)
  validate : String → Bool
  now : Int

/-- The storage state after running one command. -/
def applyOp (cfg : Config) (st : Storage) (o : Op) : Storage :=
  (process cfg o.validate o.members_res o.now st o.room o.sender
    o.command_and_args).state

/-- The storage state after running a sequence of commands. -/
def runOps (cfg : Config) (ops : List Op) (st : Storage) : Storage :=
  ops.foldl (applyOp cfg) st

/-! ## The invite callback (`callbacks.py`) -/

/-- The storage effect of `Callbacks.invite`: after the join attempts (which
do not touch storage), the inviting user is made a room admin, and the room
creator as well when `room.creator` is truthy (non-empty) and differs from
the inviter. -/
def invite (st : Storage) (room_id sender creator : String) : Storage :=
  let st1 := set_room_admin st room_id sender
  if creator ≠ "" ∧ creator ≠ sender then set_room_admin st1 room_id creator
  else st1

/-! ## Concrete instances used to evaluate the model -/

/-- A configuration with no super-admins. -/
def demoConfig : Config := ⟨[], "default prompt"⟩

/-- A fresh, empty storage. -/
def demoStorage : Storage := emptyStorage "hello"

/-- A storage where `@a:x` is the sole admin of room `!r`. -/
def demoOneAdmin : Storage := set_room_admin demoStorage "!r" "@a:x"

/-- A storage where `@a:x` and `@b:x` are admins of room `!r`. -/
def demoTwoAdmins : Storage := set_room_admin demoOneAdmin "!r" "@b:x"

/-- A feed row as read back by `list_rss_feeds`: watermark 100, name not yet
populated. -/
def demoFeedInfo : FeedInfo := ⟨"http://f", 100, none⟩

/-- A parsed feed with two entries, published at times 101 and 102. -/
def demoParsedFeed : ParsedFeed :=
  ⟨"F", [⟨"l1", "t1", "d1", 101⟩, ⟨"l2", "t2", "d2", 102⟩]⟩

/-- A feedparser collaborator that parses exactly the feed `http://f`. -/
def demoFetch : String → Option ParsedFeed :=
  fun u => if u = "http://f" then some demoParsedFeed else none

/-- A storage holding the feed `http://f` with watermark 100 and one
subscribed room `!r`. -/
def demoFeedSt : Storage :=
  { demoStorage with
    rss_feed := [("http://f", 100)],
    rss_subscription := [("http://f", "!r")] }

/-! ## Helper lemmas -/

theorem find?_map_pred_eq {α : Type} (l : List α) (p : α → Bool) (g : α → α)
    (hg : ∀ a, p (g a) = p a) : (l.map g).find? p = (l.find? p).map g := by
  induction l with
  | nil => rfl
  | cons a t ih =>
      cases h : p a
      · simp [List.find?, hg a, h, ih]
      · simp [List.find?, hg a, h]

theorem list_room_admins_congr (st' st : Storage)
    (h : st'.room_admin = st.room_admin) (room : String) :
    list_room_admins st' room = list_room_admins st room := by
  simp [list_room_admins, h]

theorem set_room_admin_room_admin (st : Storage) (r a : String) :
    (set_room_admin st r a).room_admin =
      if (a, r) ∈ st.room_admin then st.room_admin
      else st.room_admin ++ [(a, r)] := by
  simp only [set_room_admin, add_room_to_db]
  split <;> split <;> split <;> simp_all

theorem pair_mem_lra {st : Storage} {a r : String}
    (h : (a, r) ∈ st.room_admin) : a ∈ list_room_admins st r := by
  simp only [list_room_admins, List.mem_map, List.mem_filter]
  exact ⟨(a, r), ⟨h, by simp⟩, rfl⟩

theorem mem_lra_set_room_admin_self (st : Storage) (r a : String) :
    a ∈ list_room_admins (set_room_admin st r a) r := by
  apply pair_mem_lra
  rw [set_room_admin_room_admin]
  split
  · assumption
  · simp

theorem mem_lra_set_room_admin_mono {st : Storage} {x room : String}
    (h : x ∈ list_room_admins st room) (r a : String) :
    x ∈ list_room_admins (set_room_admin st r a) room := by
  simp only [list_room_admins, List.mem_map, List.mem_filter] at h ⊢
  obtain ⟨p, ⟨hp, hp2⟩, rfl⟩ := h
  rw [set_room_admin_room_admin]
  split
  · exact ⟨p, ⟨hp, hp2⟩, rfl⟩
  · exact ⟨p, ⟨List.mem_append_left _ hp, hp2⟩, rfl⟩

theorem lra_remove_room_admin (st : Storage) (r t room : String) :
    list_room_admins (remove_room_admin st r t) room =
      if room = r then (list_room_admins st room).filter (fun x => ¬ x = t)
      else list_room_admins st room := by
  simp only [list_room_admins, remove_room_admin]
  induction st.room_admin with
  | nil => split <;> rfl
  | cons p l ih =>
      by_cases h2 : p.2 = room <;> by_cases h1 : p.1 = t <;>
        by_cases hpr : p.2 = r <;> by_cases hr : room = r <;>
          simp_all [List.filter_cons, List.map_cons]

theorem lra_nodup {st : Storage} (h : st.room_admin.Nodup) (room : String) :
    (list_room_admins st room).Nodup := by
  simp only [list_room_admins]
  apply List.Nodup.map_on
  · intro x hx y hy hxy
    rw [List.mem_filter] at hx hy
    have hx2 : x.2 = room := by simpa using hx.2
    have hy2 : y.2 = room := by simpa using hy.2
    exact Prod.ext hxy (hx2.trans hy2.symm)
  · exact h.filter _

theorem filter_ne_length {l : List String} {t : String}
    (hnd : l.Nodup) (hmem : t ∈ l) :
    (l.filter (fun x => ¬ x = t)).length = l.length - 1 := by
  have he : l.erase t = l.filter (fun x => ¬ x = t) := by
    rw [hnd.erase_eq_filter]
    congr 1
    funext x
    by_cases h : x = t <;> simp [h]
  rw [← he, List.length_erase_of_mem hmem]

theorem remove_guarded_nonempty {st : Storage} {room t : String}
    (hnd : st.room_admin.Nodup)
    (hmem : t ∈ list_room_admins st room)
    (hlen : (list_room_admins st room).length ≠ 1) :
    list_room_admins (remove_room_admin st room t) room ≠ [] := by
  rw [lra_remove_room_admin, if_pos rfl]
  have hpos : 0 < (list_room_admins st room).length :=
    List.length_pos.mpr (List.ne_nil_of_mem hmem)
  have h2 : 2 ≤ (list_room_admins st room).length := by omega
  have := filter_ne_length (lra_nodup hnd room) hmem
  intro hcon
  rw [hcon] at this
  simp at this
  omega

theorem add_room_room_admin (st : Storage) (r : String) :
    (add_room_to_db st r).room_admin = st.room_admin := by
  simp only [add_room_to_db]
  split <;> rfl

theorem set_personality_room_admin (st : Storage) (r p : String) :
    (set_personality st r p).room_admin = st.room_admin := by
  simp [set_personality, add_room_room_admin]

theorem set_interject_room_admin (st : Storage) (r : String) (q : ℚ) :
    (set_interject st r q).room_admin = st.room_admin := by
  simp [set_interject, add_room_room_admin]

theorem toggle_threads_room_admin (st : Storage) (r : String) :
    (toggle_hide_in_threads st r).2.room_admin = st.room_admin := by
  simp [toggle_hide_in_threads, add_room_room_admin]

theorem add_rss_feed_room_admin (now : Int) (st : Storage) (r u : String) :
    (add_rss_feed now st r u).room_admin = st.room_admin := by
  simp only [add_rss_feed]
  split <;> split <;> simp_all [add_room_room_admin]

theorem remove_rss_feed_room_admin (st : Storage) (r u : String) :
    (remove_rss_feed st r u).room_admin = st.room_admin := rfl

theorem set_greeting_room_admin (st : Storage) (t : String) :
    (set_greeting st t).room_admin = st.room_admin := rfl

theorem greeting_cmd_room_admin (st : Storage) (args : List String) :
    (greeting_cmd st args).2.room_admin = st.room_admin := by
  cases args <;> rfl

theorem personality_cmd_room_admin (cfg : Config) (st : Storage)
    (room : String) (args : List String) :
    (personality_cmd cfg st room args).state.room_admin = st.room_admin := by
  cases args with
  | nil =>
      simp only [personality_cmd]
      cases get_personality st room <;> rfl
  | cons a t => simp [personality_cmd, Outcome.state, set_personality_room_admin]

theorem add_rss_cmd_room_admin (validate : String → Bool) (now : Int)
    (st : Storage) (room : String) (args : List String) :
    (add_rss_cmd validate now st room args).2.room_admin = st.room_admin := by
  cases args with
  | nil => rfl
  | cons a t =>
      simp only [add_rss_cmd]
      split
      · rfl
      · split
        · rfl
        · simp [add_rss_feed_room_admin]

theorem remove_rss_cmd_room_admin (st : Storage) (room : String)
    (args : List String) :
    (remove_rss_cmd st room args).2.room_admin = st.room_admin := by
  cases args with
  | nil => rfl
  | cons a t =>
      simp only [remove_rss_cmd]
      split
      · rfl
      · simp [remove_rss_feed_room_admin]

theorem interject_cmd_room_admin (st : Storage) (room : String)
    (args : List String) :
    (interject_cmd st room args).state.room_admin = st.room_admin := by
  cases args with
  | nil =>
      simp only [interject_cmd]
      split <;> rfl
  | cons a t =>
      simp only [interject_cmd]
      cases pyInt? a with
      | none => rfl
      | some odds =>
          simp only []
          split
          · rfl
          · split <;> simp [Outcome.state, set_interject_room_admin]

theorem set_room_admin_nodup {st : Storage} (h : st.room_admin.Nodup)
    (r a : String) : (set_room_admin st r a).room_admin.Nodup := by
  rw [set_room_admin_room_admin]
  split
  · exact h
  · rename_i hmem
    simp [List.nodup_append, h, hmem]

theorem remove_room_admin_nodup {st : Storage} (h : st.room_admin.Nodup)
    (r a : String) : (remove_room_admin st r a).room_admin.Nodup :=
  h.filter _

theorem add_admin_cmd_preserves {st : Storage} {room : String}
    (members args : List String) (obs : String)
    (hnd : st.room_admin.Nodup) :
    (add_admin_cmd st room members args).2.room_admin.Nodup ∧
      (list_room_admins st obs ≠ [] →
        list_room_admins (add_admin_cmd st room members args).2 obs ≠ []) := by
  cases args with
  | nil => exact ⟨hnd, fun h => h⟩
  | cons a t =>
      simp only [add_admin_cmd]
      split
      · exact ⟨hnd, fun h => h⟩
      · refine ⟨set_room_admin_nodup hnd room a, fun h hc => ?_⟩
        obtain ⟨x, hx⟩ := List.exists_mem_of_ne_nil _ h
        exact (List.eq_nil_iff_forall_not_mem.mp hc x)
          (mem_lra_set_room_admin_mono hx room a)

theorem remove_admin_cmd_preserves {st : Storage} {room sender : String}
    (members args : List String) (obs : String)
    (hnd : st.room_admin.Nodup) :
    (remove_admin_cmd st room sender members args).2.room_admin.Nodup ∧
      (list_room_admins st obs ≠ [] →
        list_room_admins (remove_admin_cmd st room sender members args).2 obs
          ≠ []) := by
  cases args with
  | nil => exact ⟨hnd, fun h => h⟩
  | cons target t =>
      simp only [remove_admin_cmd]
      split
      · exact ⟨hnd, fun h => h⟩
      · split
        · exact ⟨hnd, fun h => h⟩
        · split
          · exact ⟨hnd, fun h => h⟩
          · split
            · exact ⟨hnd, fun h => h⟩
            · refine ⟨remove_room_admin_nodup hnd room target, fun h => ?_⟩
              rw [lra_remove_room_admin]
              split
              · rename_i hmem hlen _ _ hobs
                subst hobs
                have := remove_guarded_nonempty hnd (by simpa using hmem)
                  (by simpa using hlen)
                rw [lra_remove_room_admin, if_pos rfl] at this
                exact this
              · exact h

theorem process_preserves (cfg : Config) (validate : String → Bool)
    (mres : Except Unit (List String)) (now : Int) (st : Storage)
    (room sender cmd obs : String) (hnd : st.room_admin.Nodup) :
    (process cfg validate mres now st room sender cmd).state.room_admin.Nodup ∧
      (list_room_admins st obs ≠ [] →
        list_room_admins
          (process cfg validate mres now st room sender cmd).state obs ≠ []) := by
  simp only [process]
  split
  · exact ⟨hnd, fun h => h⟩
  · split
    · exact ⟨hnd, fun h => h⟩
    · split
      · exact ⟨hnd, fun h => h⟩
      · split
        · exact ⟨hnd, fun h => h⟩
        · -- threads
          constructor
          · simp [Outcome.state, toggle_threads_cmd, toggle_threads_room_admin, hnd]
          · intro h
            rw [list_room_admins_congr _ st (by
              simp [Outcome.state, toggle_threads_cmd, toggle_threads_room_admin])]
            exact h
        · -- personality
          constructor
          · rw [show (personality_cmd cfg st room _).state.room_admin
                = st.room_admin from personality_cmd_room_admin ..]
            exact hnd
          · intro h
            rw [list_room_admins_congr _ _ (personality_cmd_room_admin ..)]
            exact h
        · -- subscribe
          constructor
          · simp [Outcome.state, add_rss_cmd_room_admin, hnd]
          · intro h
            rw [list_room_admins_congr _ st (by
              simp [Outcome.state, add_rss_cmd_room_admin])]
            exact h
        · -- unsubscribe
          constructor
          · simp [Outcome.state, remove_rss_cmd_room_admin, hnd]
          · intro h
            rw [list_room_admins_congr _ st (by
              simp [Outcome.state, remove_rss_cmd_room_admin])]
            exact h
        · exact ⟨hnd, fun h => h⟩
        · -- add
          constructor
          · simp only [Outcome.state]
            exact (add_admin_cmd_preserves _ _ obs hnd).1
          · simp only [Outcome.state]
            exact (add_admin_cmd_preserves _ _ obs hnd).2
        · -- remove
          constructor
          · simp only [Outcome.state]
            exact (remove_admin_cmd_preserves _ _ obs hnd).1
          · simp only [Outcome.state]
            exact (remove_admin_cmd_preserves _ _ obs hnd).2
        · exact ⟨hnd, fun h => h⟩
        · -- interject
          constructor
          · rw [show (interject_cmd st room _).state.room_admin
                = st.room_admin from interject_cmd_room_admin ..]
            exact hnd
          · intro h
            rw [list_room_admins_congr _ _ (interject_cmd_room_admin ..)]
            exact h
        · -- greeting
          split
          · exact ⟨hnd, fun h => h⟩
          · constructor
            · simp [Outcome.state, greeting_cmd_room_admin, hnd]
            · intro h
              rw [list_room_admins_congr _ st (by
                simp [Outcome.state, greeting_cmd_room_admin])]
              exact h
        · exact ⟨hnd, fun h => h⟩

theorem runOps_preserves (cfg : Config) (ops : List Op) (st : Storage)
    (obs : String) (hnd : st.room_admin.Nodup) :
    (runOps cfg ops st).room_admin.Nodup ∧
      (list_room_admins st obs ≠ [] →
        list_room_admins (runOps cfg ops st) obs ≠ []) := by
  induction ops generalizing st with
  | nil => exact ⟨hnd, fun h => h⟩
  | cons o t ih =>
      have hstep := process_preserves cfg o.validate o.members_res o.now st
        o.room o.sender o.command_and_args obs hnd
      have := ih (applyOp cfg st o) hstep.1
      exact ⟨this.1, fun h => this.2 (hstep.2 h)⟩

/-- C2: for every `remove <user>` command reaching `Command._remove_admin`,
the command is rejected when the target is not an admin, is the only admin
of the room, is not a room member, or equals the sender — checked in exactly
that order with the first failing check winning and the whole storage (so in
particular the admin set) left unchanged; when no check fails the target is
removed from the room's admin set. -/
theorem C2_remove_admin_check_order (st : Storage) (room sender target : String)
    (members : List String) :
    (target ∉ list_room_admins st room →
      remove_admin_cmd st room sender members [target] =
        (.notAnAdmin target, st)) ∧
    (target ∈ list_room_admins st room →
      (list_room_admins st room).length = 1 →
      remove_admin_cmd st room sender members [target] = (.onlyAdmin, st)) ∧
    (target ∈ list_room_admins st room →
      (list_room_admins st room).length ≠ 1 → target ∉ members →
      remove_admin_cmd st room sender members [target] =
        (.notMemberReply target, st)) ∧
    (target ∈ list_room_admins st room →
      (list_room_admins st room).length ≠ 1 → target ∈ members →
      target = sender →
      remove_admin_cmd st room sender members [target] =
        (.cannotRemoveSelf, st)) ∧
    (target ∈ list_room_admins st room →
      (list_room_admins st room).length ≠ 1 → target ∈ members →
      target ≠ sender →
      remove_admin_cmd st room sender members [target] =
        (.removedAdmin target, remove_room_admin st room target) ∧
      target ∉ list_room_admins (remove_room_admin st room target) room) := by
  refine ⟨?_, ?_, ?_, ?_, ?_⟩
  · intro h
    simp [remove_admin_cmd, h]
  · intro h hl
    simp [remove_admin_cmd, h, hl]
  · intro h hl hm
    simp [remove_admin_cmd, h, hl, hm]
  · intro h hl hm hs
    subst hs
    simp [remove_admin_cmd, h, hl, hm]
  · intro h hl hm hs
    refine ⟨by simp [remove_admin_cmd, h, hl, hm, hs], ?_⟩
    rw [lra_remove_room_admin, if_pos rfl]
    simp [List.mem_filter]

/-- C2 witness: with two admins, removing the other one succeeds. -/
theorem C2_witness :
    remove_admin_cmd demoTwoAdmins "!r" "@a:x" ["@a:x", "@b:x"] ["@b:x"] =
      (.removedAdmin "@b:x", remove_room_admin demoTwoAdmins "!r" "@b:x") :=
  ((C2_remove_admin_check_order demoTwoAdmins "!r" "@a:x" "@b:x"
      ["@a:x", "@b:x"]).2.2.2.2 (by decide) (by decide) (by decide)
      (by decide)).1

/-- C3 counterexample: a sender who is not an admin and invokes `help` does
not receive the help text — the admin gate in `Command.process` runs before
the verb dispatch, so the reply is the fixed no-permission message, which is
not the help text. -/
theorem C3_counterexample :
    process demoConfig (fun _ => true) (.ok []) 0 demoStorage "!r" "@u:x"
        "help" = .ok (.badPerms "@u:x") demoStorage ∧
      Reply.badPerms "@u:x" ≠ .help :=
  ⟨by decide, by decide⟩

/-- C3 (amended): every verb, `help` included, requires `check_if_admin`;
a sender failing it receives the fixed no-permission reply and no state
change for every verb.  Only a message with no verb at all (no nonempty
token) bypasses the gate, showing the help text. -/
theorem C3_amended_gate (cfg : Config) (validate : String → Bool)
    (mres : Except Unit (List String)) (now : Int) (st : Storage)
    (room sender cmd : String)
    (hadmin : check_if_admin cfg.admins st room sender = false) :
    ((pySplit cmd).filter (· ≠ "") ≠ [] →
      process cfg validate mres now st room sender cmd =
        .ok (.badPerms sender) st) ∧
    ((pySplit cmd).filter (· ≠ "") = [] →
      process cfg validate mres now st room sender cmd = .ok .help st) := by
  constructor
  · intro h
    simp only [process]
    cases hr : (pySplit cmd).filter (· ≠ "") with
    | nil => exact absurd hr h
    | cons c t => simp [hr, hadmin]
  · intro h
    simp only [process]
    cases hr : (pySplit cmd).filter (· ≠ "") with
    | nil => simp [hr]
    | cons c t =>
        rw [h] at hr
        cases hr

/-- C3 witness: the amended gate behaviour at a concrete non-admin sender
invoking `help`. -/
theorem C3_witness :
    process demoConfig (fun _ => true) (.ok []) 0 demoStorage "!r" "@u:x"
      "help" = .ok (.badPerms "@u:x") demoStorage :=
  (C3_amended_gate demoConfig (fun _ => true) (.ok []) 0 demoStorage "!r"
    "@u:x" "help" (by decide)).1 (by decide)

/-- C8: when the membership lookup collaborator fails during command
processing, the failure does not degrade to an empty member set: after
logging, `Command.process` reads `.members` off the `JoinedMembersError`
response, which carries no such attribute, so an `AttributeError` escapes
the command path — here shown for an admin running `add` during a failed
lookup. -/
theorem C8_members_error_crash :
    process demoConfig (fun _ => true) (.error ()) 0 demoOneAdmin "!r" "@a:x"
      "add @b:x" = .raise "AttributeError" demoOneAdmin := by decide

/-- C9 counterexample: `get_personality` does not return a string for every
room identifier: for a room never written to the store, `fetchone()`
returns `None` and subscripting it raises a `TypeError`. -/
theorem C9_counterexample :
    get_personality (emptyStorage "hi") "!never:x" = .error "TypeError" := rfl

/-- C9 (amended): for every room that has a row in the `room` table,
`get_personality` returns a string without raising, with the empty-string
sentinel when no personality override has been set (NULL column). -/
theorem C9_amended_personality (st : Storage) (room : String) (r : RoomRow)
    (h : st.room.find? (fun x => x.room_id = room) = some r) :
    get_personality st room = .ok (r.personality.getD "") := by
  simp [get_personality, h]

/-- C9 witness: the amended statement evaluated on a storage whose room row
was created with a NULL personality. -/
theorem C9_witness :
    get_personality (add_room_to_db demoStorage "!r") "!r" = .ok "" :=
  C9_amended_personality (add_room_to_db demoStorage "!r") "!r"
    ⟨"!r", none, 0, false⟩ (by decide)

/-- C10: after the invite callback completes for a room, the inviting user
is present in the room's admin list, and when the room's creator is
non-empty and differs from the inviter, the creator is present as well. -/
theorem C10_invite_admins (st : Storage) (room_id sender creator : String) :
    sender ∈ list_room_admins (invite st room_id sender creator) room_id ∧
    (creator ≠ "" → creator ≠ sender →
      creator ∈ list_room_admins (invite st room_id sender creator) room_id) := by
  constructor
  · simp only [invite]
    split
    · exact mem_lra_set_room_admin_mono (mem_lra_set_room_admin_self ..) ..
    · exact mem_lra_set_room_admin_self ..
  · intro h1 h2
    simp only [invite]
    rw [if_pos ⟨h1, h2⟩]
    exact mem_lra_set_room_admin_self ..

/-- C10 witness: a creator distinct from the inviter is an admin after the
invite. -/
theorem C10_witness :
    "@creator:x" ∈
      list_room_admins (invite demoStorage "!r" "@inviter:x" "@creator:x")
        "!r" :=
  (C10_invite_admins demoStorage "!r" "@inviter:x" "@creator:x").2
    (by decide) (by decide)

theorem find?_append_right_isSome {α : Type} (l : List α) (p : α → Bool)
    (x : α) (hx : p x = true) : ((l ++ [x]).find? p).isSome := by
  induction l with
  | nil => simp [List.find?, hx]
  | cons a t ih =>
      simp only [List.cons_append, List.find?]
      cases p a
      · exact ih
      · rfl

theorem room_find?_add_isSome (st : Storage) (room : String) :
    ((add_room_to_db st room).room.find? fun r => r.room_id = room).isSome := by
  simp only [add_room_to_db]
  split
  · assumption
  · exact find?_append_right_isSome st.room _ _ (by simp)

theorem room_find?_update (l : List RoomRow) (room : String)
    (f : RoomRow → RoomRow) (hf : ∀ r, (f r).room_id = r.room_id)
    (r0 : RoomRow) (h : l.find? (fun r => r.room_id = room) = some r0) :
    ((l.map fun r => if r.room_id = room then f r else r).find?
        (fun r => r.room_id = room)) = some (f r0) := by
  rw [find?_map_pred_eq]
  · rw [h]
    have hr0 : r0.room_id = room := by
      have := List.find?_some h
      simpa using this
    simp [hr0]
  · intro a
    by_cases ha : a.room_id = room <;> simp [ha, hf]

theorem interject_find?_update (l : List RoomRow) (room : String) (q : ℚ)
    (r0 : RoomRow) (h : l.find? (fun r => r.room_id = room) = some r0) :
    ((l.map fun r =>
        if r.room_id = room then { r with interject_odds := q } else r).find?
      (fun r => r.room_id = room)) = some { r0 with interject_odds := q } :=
  room_find?_update l room (fun r => { r with interject_odds := q })
    (fun _ => rfl) r0 h

theorem threads_find?_update (l : List RoomRow) (room : String) (b : Bool)
    (r0 : RoomRow) (h : l.find? (fun r => r.room_id = room) = some r0) :
    ((l.map fun r =>
        if r.room_id = room then { r with hide_in_threads := b } else r).find?
      (fun r => r.room_id = room)) = some { r0 with hide_in_threads := b } :=
  room_find?_update l room (fun r => { r with hide_in_threads := b })
    (fun _ => rfl) r0 h

/-- C6: the Settings Store persists per-room interjection odds and the
hide-in-threads flag (fields of the room row) and provides
getInterjectOdds/setInterjectOdds — a write is read back exactly and an
unknown room reads as the default 0 — and getHideInThreads and
toggleHideInThreads, with the toggle returning the new, persisted value of
the flag.  (The accessors are modelled from the spec: they are absent from
`storage.py` under `src/`, which contains only their callers.) -/
theorem C6_settings_ops (st : Storage) (room : String) (q : ℚ) :
    get_interject (set_interject st room q) room = q ∧
    ((st.room.find? fun r => r.room_id = room) = none →
      get_interject st room = 0) ∧
    (toggle_hide_in_threads st room).1 = !(get_hide_in_threads st room) ∧
    get_hide_in_threads (toggle_hide_in_threads st room).2 room =
      (toggle_hide_in_threads st room).1 := by
  refine ⟨?_, ?_, rfl, ?_⟩
  · obtain ⟨r0, hr0⟩ := Option.isSome_iff_exists.mp
      (room_find?_add_isSome st room)
    simp only [get_interject, set_interject]
    rw [interject_find?_update _ room q r0 hr0]
  · intro h
    simp [get_interject, h]
  · obtain ⟨r0, hr0⟩ := Option.isSome_iff_exists.mp
      (room_find?_add_isSome st room)
    simp only [get_hide_in_threads, toggle_hide_in_threads]
    rw [threads_find?_update _ room _ r0 hr0]

/-- C6 witness: the settings operations evaluated on a fresh storage. -/
theorem C6_witness :
    get_interject (set_interject demoStorage "!r" (1 / 4)) "!r" = 1 / 4 ∧
      get_interject demoStorage "!r" = 0 :=
  ⟨(C6_settings_ops demoStorage "!r" (1 / 4)).1,
    (C6_settings_ops demoStorage "!r" 0).2.1 (by decide)⟩

/-- C7: `interject` with an argument.  A non-integer argument is *not*
rejected with a user-visible message: Python `int()` raises `ValueError`,
which the `except (TypeError, AssertionError)` clause does not catch, so
the exception escapes (first conjunct — the code bug).  An integer outside
0–10000 inclusive is rejected with the range message and no state change;
an in-range integer N > 0 stores probability 1/N, and N = 0 stores
probability 0. -/
theorem C7_interject_paths (st : Storage) (room : String) (n : Int) :
    interject_cmd st room ["abc"] = .raise "ValueError" st ∧
    interject_cmd st room ["10001"] = .ok .oddsOutOfRange st ∧
    interject_cmd st room ["-1"] = .ok .oddsOutOfRange st ∧
    (∀ s, pyInt? s = some n → 0 < n → n ≤ 10000 →
      interject_cmd st room [s] =
        .ok (.nowInterjecting n) (set_interject st room (1 / (n : ℚ)))) ∧
    (∀ s, pyInt? s = some 0 →
      interject_cmd st room [s] = .ok .interjectOff (set_interject st room 0)) := by
  refine ⟨?_, ?_, ?_, ?_, ?_⟩
  · simp [interject_cmd, show pyInt? "abc" = none from rfl]
  · norm_num [interject_cmd, show pyInt? "10001" = some 10001 from rfl]
  · norm_num [interject_cmd, show pyInt? "-1" = some (-1) from rfl]
  · intro s hs h1 h2
    simp only [interject_cmd, hs]
    rw [if_neg (by omega), if_pos (by omega)]
  · intro s hs
    simp [interject_cmd, hs]

/-- C7 witness: the in-range path evaluated at odds 5. -/
theorem C7_witness :
    interject_cmd demoStorage "!r" ["5"] =
      .ok (.nowInterjecting 5)
        (set_interject demoStorage "!r" (1 / ((5 : Int) : ℚ))) :=
  (C7_interject_paths demoStorage "!r" 5).2.2.2.1 "5" rfl (by decide)
    (by decide)

/-- C5: a scheduler cycle selects for delivery exactly those entries of a
feed whose publish timestamp is strictly greater than the feed's stored
watermark — an entry whose timestamp equals the watermark is never
delivered; in particular, for a watermark T and entries at T-1, T, T+1 and
T+2, exactly the entries at T+1 and T+2 are selected, in feed order. -/
theorem C5_strictly_newer (fetch : String → Option ParsedFeed)
    (fi : FeedInfo) (pf : ParsedFeed) (h : fetch fi.url = some pf) :
    get_rss_updates fetch [fi] =
      ((pf.entries.filter fun e => fi.last_update < e.updated).map
        fun e => { feed := { fi with name := some pf.title }, url := e.link,
                   title := e.title, description := e.description }) ∧
    (∀ (T : Int) (fetch2 : String → Option ParsedFeed) (fi2 : FeedInfo),
      fi2.last_update = T →
      fetch2 fi2.url = some ⟨"Feed",
        [⟨"l1", "t1", "d1", T - 1⟩, ⟨"l2", "t2", "d2", T⟩,
         ⟨"l3", "t3", "d3", T + 1⟩, ⟨"l4", "t4", "d4", T + 2⟩]⟩ →
      get_rss_updates fetch2 [fi2] =
        [{ feed := { fi2 with name := some "Feed" }, url := "l3",
           title := "t3", description := "d3" },
         { feed := { fi2 with name := some "Feed" }, url := "l4",
           title := "t4", description := "d4" }]) := by
  constructor
  · simp [get_rss_updates, h]
  · intro T fetch2 fi2 hl hf
    have e1 : decide (fi2.last_update < T - 1) = false :=
      decide_eq_false (by omega)
    have e2 : decide (fi2.last_update < T) = false :=
      decide_eq_false (by omega)
    have e3 : decide (fi2.last_update < T + 1) = true :=
      decide_eq_true (by omega)
    have e4 : decide (fi2.last_update < T + 2) = true :=
      decide_eq_true (by omega)
    simp [get_rss_updates, hf, List.filter, e1, e2, e3, e4]

/-- C5 witness: the selection evaluated on a concrete feed with watermark
100 and entries at 101 and 102. -/
theorem C5_witness :
    get_rss_updates demoFetch [demoFeedInfo] =
      [{ feed := ⟨"http://f", 100, some "F"⟩, url := "l1", title := "t1",
         description := "d1" },
       { feed := ⟨"http://f", 100, some "F"⟩, url := "l2", title := "t2",
         description := "d2" }] :=
  ((C5_strictly_newer demoFetch demoFeedInfo demoParsedFeed rfl).1).trans
    (by decide)

theorem find?_set_rss (now : Int) (st : Storage) (u uq : String) :
    ((set_rss_last_update now st u).rss_feed.find? fun p => p.1 = uq) =
      if u = uq then
        ((st.rss_feed.find? fun p => p.1 = uq).map fun p => (p.1, now))
      else st.rss_feed.find? fun p => p.1 = uq := by
  simp only [set_rss_last_update]
  rw [find?_map_pred_eq]
  · cases hf : st.rss_feed.find? fun p => p.1 = uq with
    | none => split <;> rfl
    | some q =>
        have hq : q.1 = uq := by
          have := List.find?_some hf
          simpa using this
        split
        · rename_i heq
          show some (if q.1 = u then (q.1, now) else q) = some (q.1, now)
          rw [if_pos (hq.trans heq.symm)]
        · rename_i hne
          show some (if q.1 = u then (q.1, now) else q) = some q
          rw [if_neg (fun hc => hne (hc.symm.trans hq))]
  · intro a
    by_cases ha : a.1 = u <;> simp [ha]

theorem find?_set_rss_stable {now : Int} {st : Storage} {uq : String}
    (u : String)
    (h : (st.rss_feed.find? fun p => p.1 = uq) = some (uq, now)) :
    ((set_rss_last_update now st u).rss_feed.find? fun p => p.1 = uq) =
      some (uq, now) := by
  rw [find?_set_rss]
  split
  · rw [h]
    rfl
  · exact h

theorem find?_set_rss_isSome {now : Int} {st : Storage} {uq : String}
    (u : String)
    (h : ((st.rss_feed.find? fun p => p.1 = uq)).isSome) :
    (((set_rss_last_update now st u).rss_feed.find? fun p => p.1 = uq)).isSome := by
  rw [find?_set_rss]
  split
  · simpa using h
  · exact h

theorem find?_set_rss_same {now : Int} {st : Storage} {uq : String}
    (h : ((st.rss_feed.find? fun p => p.1 = uq)).isSome) :
    ((set_rss_last_update now st uq).rss_feed.find? fun p => p.1 = uq) =
      some (uq, now) := by
  rw [find?_set_rss, if_pos rfl]
  obtain ⟨q, hq⟩ := Option.isSome_iff_exists.mp h
  have hq1 : q.1 = uq := by
    have := List.find?_some hq
    simpa using this
  rw [hq]
  simp [hq1]

theorem rss_fold_now (now : Int) (updates : List FeedEntry) (uq : String) :
    ∀ (st : Storage) (msgs : List (String × String)),
      ((st.rss_feed.find? fun p => p.1 = uq) = some (uq, now) ∨
        (((st.rss_feed.find? fun p => p.1 = uq)).isSome ∧
          ∃ upd ∈ updates, upd.feed.url = uq)) →
      (((updates.foldl
          (fun acc u =>
            let st' := set_rss_last_update now acc.1 u.feed.url
            (st', acc.2 ++ (get_rooms_from_feed st' u.feed.url).map
              fun room_id => (room_id, rss_message u)))
          (st, msgs)).1.rss_feed.find? fun p => p.1 = uq)) = some (uq, now) := by
  induction updates with
  | nil =>
      intro st msgs h
      rcases h with h | ⟨_, ⟨w, hw, _⟩⟩
      · exact h
      · cases hw
  | cons upd rest ih =>
      intro st msgs h
      simp only [List.foldl]
      apply ih
      rcases h with h | ⟨hs, ⟨w, hw, hwu⟩⟩
      · exact Or.inl (find?_set_rss_stable _ h)
      · rcases List.mem_cons.mp hw with rfl | hw2
        · exact Or.inl (hwu ▸ find?_set_rss_same (hwu ▸ hs))
        · exact Or.inr ⟨find?_set_rss_isSome _ hs, ⟨w, hw2, hwu⟩⟩

/-- C4 (amended): after a scheduler cycle processes a feed that had at least
one new entry, the feed's stored watermark equals the wall-clock time `now`
of the cycle (`Storage.set_rss_last_update` stores `round(time.time())`),
not the latest publish timestamp among the new entries. -/
theorem C4_amended_watermark (fetch : String → Option ParsedFeed) (now : Int)
    (st : Storage) (u : String)
    (h1 : ((st.rss_feed.find? fun p => p.1 = u)).isSome)
    (h2 : ∃ upd ∈ get_rss_updates fetch (list_rss_feeds st),
      upd.feed.url = u) :
    ((sync_rss_cycle fetch now st).1.rss_feed.find? fun p => p.1 = u) =
      some (u, now) := by
  have := rss_fold_now now (get_rss_updates fetch (list_rss_feeds st)) u st []
    (Or.inr ⟨h1, h2⟩)
  simpa [sync_rss_cycle] using this

/-- C4 counterexample: in the §8 scenario — watermark 100, new entries at
101 (T+1) and 102 (T+2), the cycle running at wall-clock time 105 — the
stored watermark after the cycle is 105, not the latest entry publish
timestamp 102. -/
theorem C4_counterexample :
    ((sync_rss_cycle demoFetch 105 demoFeedSt).1.rss_feed.find? fun p =>
        p.1 = "http://f") = some ("http://f", 105) ∧
      ¬ ((sync_rss_cycle demoFetch 105 demoFeedSt).1.rss_feed.find? fun p =>
        p.1 = "http://f") = some ("http://f", 102) := by
  constructor
  · decide
  · decide

/-- C4 witness: the amended watermark statement evaluated on the concrete
scenario of the counterexample. -/
theorem C4_witness :
    ((sync_rss_cycle demoFetch 105 demoFeedSt).1.rss_feed.find? fun p =>
        p.1 = "http://f") = some ("http://f", 105) :=
  C4_amended_watermark demoFetch 105 demoFeedSt "http://f" (by decide)
    (by decide)

/-- C1: for every room, once at least one admin has been added (a nonempty
admin list for the room over a duplicate-free `room_admin` relation — the
table's composite primary key is what rules out duplicate rows), no sequence
of Command Processor operations can reach a state where the room's
`list_room_admins` is empty: the removal path refuses to delete the sole
remaining admin.  The second conjunct shows the store itself would permit
emptying the set: `remove_room_admin` applied directly to a one-admin store
leaves it with no admins. -/
theorem C1_admin_set_never_emptied (cfg : Config) (ops : List Op)
    (st : Storage) (room : String) (hnd : st.room_admin.Nodup)
    (hne : list_room_admins st room ≠ []) :
    list_room_admins (runOps cfg ops st) room ≠ [] ∧
      list_room_admins
        (remove_room_admin
          (set_room_admin (emptyStorage "") "!room" "@alice") "!room"
          "@alice") "!room" = [] :=
  ⟨(runOps_preserves cfg ops st room hnd).2 hne, by decide⟩

/-- C1 witness: a sole admin trying to remove themselves leaves the admin
set nonempty. -/
theorem C1_witness :
    list_room_admins
      (runOps demoConfig
        [{ room := "!r", sender := "@a:x", command_and_args := "remove @a:x",
           members_res := .ok ["@a:x"], validate := fun _ => true, now := 0 }]
        demoOneAdmin) "!r" ≠ [] :=
  (C1_admin_set_never_emptied demoConfig
    [{ room := "!r", sender := "@a:x", command_and_args := "remove @a:x",
       members_res := .ok ["@a:x"], validate := fun _ => true, now := 0 }]
    demoOneAdmin "!r" (by decide) (by decide)).1

end Edubot
